import Mathlib

/-!
Shallow embedding of the resilient-connection and symbol-resolution
subsystem of the hyperliquid TypeScript client library.

Part 1 models the `WebSocketClient` class (src/websocket/connection.ts):
its reconnection logic (`reconnect`, `handleOpen`, `handleClose`,
`close`) and subscription accounting
(`incrementSubscriptionCount` / `decrementSubscriptionCount`).

Part 2 models the `SymbolConversion` class (src/utils/symbolConversion.ts,
the version with failure counting and metadata validation): map
construction in `refreshAssetMaps`, the periodic-refresh timer with its
failure counter, symbol lookup (`getAssetIndex`, `getExchangeName`),
symbol normalization (`convertSymbol`), payload walking
(`convertSymbolsInObject`) and numeric coercion (`convertToNumber`).

Part 3 models the interleaving of overlapping `initialize()` calls at
both the cache level (`SymbolConversion`) and the client level
(`Hyperliquid`, which guards with an in-flight promise).

Timers (`setTimeout` / `setInterval`) are modelled by the data they carry:
a scheduled reconnect is the `Option Nat` delay value handed to
`setTimeout`, an active interval is a `Bool` flag.  Wall-clock fields of
the source that no claim mentions (`lastPongReceived`) are omitted.
JavaScript `Map` / `Set` (insertion-ordered, `set` overwrites in place)
are modelled as association lists with an in-place-overwriting `mapSet`.
-/

/-- Mutable fields of `WebSocketClient` (src/websocket/connection.ts)
that the reconnection and subscription logic reads or writes.
`wsPresent` models `this.ws !== null`; `pingIntervalActive` models
`this.pingInterval !== null`. -/
structure WSState where
  wsPresent : Bool
  connected : Bool
  connecting : Bool
  pingIntervalActive : Bool
  reconnectAttempts : Nat
  maxReconnectAttempts : Nat
  initialReconnectDelay : Nat
  maxReconnectDelay : Nat
  subscriptionCount : Nat
deriving DecidableEq, Repr

/-- `MAX_SUBSCRIPTIONS` constant of `WebSocketClient` (1000). -/
def MAX_SUBSCRIPTIONS : Nat := 1000

/-- Result of one call to the private `reconnect()` method: the updated
state, the delay passed to `setTimeout` when an attempt was scheduled,
and whether the `maxReconnectAttemptsReached` event was emitted. -/
structure ReconnectResult where
  state : WSState
  scheduledDelay : Option Nat
  emittedMaxReached : Bool
deriving DecidableEq, Repr

/-- `WebSocketClient.reconnect()` (connection.ts lines 146-171): while
`reconnectAttempts < maxReconnectAttempts`, increment the counter and
schedule a retry after
`min(initialReconnectDelay * 2^(reconnectAttempts-1), maxReconnectDelay)`
(computed with the already-incremented counter, as in the source);
otherwise emit `maxReconnectAttemptsReached` and schedule nothing. -/
def reconnect (s : WSState) : ReconnectResult :=
  if s.reconnectAttempts < s.maxReconnectAttempts then
    let s1 := { s with reconnectAttempts := s.reconnectAttempts + 1 }
    let delay := min (s.initialReconnectDelay * 2 ^ (s1.reconnectAttempts - 1))
      s.maxReconnectDelay
    { state := s1, scheduledDelay := some delay, emittedMaxReached := false }
  else
    { state := s, scheduledDelay := none, emittedMaxReached := true }

/-- `handleOpen` (connection.ts lines 74-83): mark connected, reset the
reconnect counter to 0, start the ping interval. -/
def handleOpen (s : WSState) : WSState :=
  { s with connected := true, connecting := false, reconnectAttempts := 0,
           pingIntervalActive := true }

/-- `handleClose` (connection.ts lines 113-120): mark disconnected, stop
the ping interval, then unconditionally call `reconnect()`.  The source
runs this handler for every transport close event, whether or not the
close came from an explicit `close()` call. -/
def handleClose (s : WSState) : ReconnectResult :=
  reconnect { s with connected := false, connecting := false,
                     pingIntervalActive := false }

/-- `WebSocketClient.close()` (connection.ts lines 206-213): when a
socket exists, clear the connected/connecting flags and close the
socket; in all cases stop the ping interval.  The transport will still
deliver a close event afterwards, which runs `handleClose`. -/
def close (s : WSState) : WSState :=
  let s1 := if s.wsPresent then { s with connected := false, connecting := false }
            else s
  { s1 with pingIntervalActive := false }

/-- The retry chain started by one unexpected close, in the scenario
where every scheduled `connect()` attempt fails: each failing attempt
runs the `.catch` branch of the `setTimeout` callback, which calls
`reconnect()` again (connection.ts lines 154-162).  Returns the list of
scheduled delays, in order, and how many times
`maxReconnectAttemptsReached` was emitted.  `fuel` bounds the chain
length. -/
def reconnectChain : WSState → Nat → List Nat × Nat
  | _, 0 => ([], 0)
  | s, fuel + 1 =>
    let r := reconnect s
    match r.scheduledDelay with
    | some d =>
      let rest := reconnectChain r.state fuel
      (d :: rest.1, rest.2)
    | none => ([], if r.emittedMaxReached then 1 else 0)

/-- `incrementSubscriptionCount()` (connection.ts lines 245-252):
refuse (returning `false`, state unchanged) once the cap is reached,
otherwise increment and return `true`. -/
def incrementSubscriptionCount (s : WSState) : WSState × Bool :=
  if s.subscriptionCount ≥ MAX_SUBSCRIPTIONS then (s, false)
  else ({ s with subscriptionCount := s.subscriptionCount + 1 }, true)

/-- `decrementSubscriptionCount()` (connection.ts lines 254-258):
decrement only while positive. -/
def decrementSubscriptionCount (s : WSState) : WSState :=
  if 0 < s.subscriptionCount then
    { s with subscriptionCount := s.subscriptionCount - 1 }
  else s

/-- A freshly-constructed, currently-open client with the default
configuration (`maxReconnectAttempts = 5`, initial delay 1000 ms, max
delay 30000 ms) and no reconnect attempts consumed. -/
def wsConnectedDefault : WSState :=
  { wsPresent := true, connected := true, connecting := false,
    pingIntervalActive := true, reconnectAttempts := 0,
    maxReconnectAttempts := 5, initialReconnectDelay := 1000,
    maxReconnectDelay := 30000, subscriptionCount := 0 }

/-- One binding step of a JavaScript `Map.set`: overwrite in place when
the key is present (keeping insertion order), append otherwise. -/
def mapSet {α : Type} (m : List (String × α)) (k : String) (v : α) :
    List (String × α) :=
  if m.any (fun p => p.1 == k) then
    m.map (fun p => if p.1 == k then (k, v) else p)
  else m ++ [(k, v)]

/-- JavaScript `Map.get`: the value bound to `k`, if any. -/
def mapGet {α : Type} (m : List (String × α)) (k : String) : Option α :=
  (m.find? (fun p => p.1 == k)).map Prod.snd

/-- JavaScript `Set.add` on an insertion-ordered set of strings. -/
def setAdd (s : List String) (x : String) : List String :=
  if s.contains x then s else s ++ [x]

/-- One entry of the perpetual universe (`perpMeta[0].universe`). -/
structure PerpAsset where
  name : String
deriving DecidableEq, Repr

/-- One entry of `spotMeta[0].tokens`. -/
structure SpotToken where
  index : Nat
  name : String
deriving DecidableEq, Repr

/-- One entry of `spotMeta[0].universe`; `tokenBase`/`tokenQuote` are
`market.tokens[0]` and `market.tokens[1]`. -/
structure SpotMarket where
  name : String
  index : Nat
  tokenBase : Nat
  tokenQuote : Nat
deriving DecidableEq, Repr

/-- The perpetual-metadata response element `perpMeta[0]`.  `univ`
models the `universe` field; `none` stands for a missing field or a
non-array value (the source checks `!perpMeta[0].universe ||
!Array.isArray(perpMeta[0].universe)`). -/
structure PerpMetaResp where
  univ : Option (List PerpAsset)
deriving DecidableEq, Repr

/-- The spot-metadata response element `spotMeta[0]`: `tokens` and
`univ` (the `universe` field), each `none` when missing or not an
array. -/
structure SpotMetaResp where
  tokens : Option (List SpotToken)
  univ : Option (List SpotMarket)
deriving DecidableEq, Repr

/-- Outcome of the `Promise.all` of the two metadata fetches inside
`refreshAssetMaps`: either the whole fetch rejects, or both responses
arrive, each possibly falsy / lacking its first element (`!perpMeta ||
!perpMeta[0]` collapses to `none`). -/
inductive FetchOutcome where
  | networkFailure
  | responses (perp : Option PerpMetaResp) (spot : Option SpotMetaResp)
deriving DecidableEq, Repr

/-- The errors `refreshAssetMaps` can throw: a rejected fetch, or one of
the two `throw new Error('Invalid ... metadata response')` validations. -/
inductive RefreshError where
  | networkError
  | invalidPerpMetadata
  | invalidSpotMetadata
deriving DecidableEq, Repr

/-- Mutable fields of `SymbolConversion` (src/utils/symbolConversion.ts,
version with failure counting).  `refreshIntervalActive` models
`this.refreshInterval !== null`. -/
structure SCState where
  assetToIndexMap : List (String × Nat)
  exchangeToInternalNameMap : List (String × String)
  spotTokensSet : List String
  refreshIntervalActive : Bool
  initialized : Bool
  consecutiveFailures : Nat
  maxConsecutiveFailures : Nat
deriving DecidableEq, Repr

/-- `perpMeta[0].universe.forEach((asset, index) => ...)`: for each
perpetual asset, bind `name-PERP ↦ index` in the asset-to-index map and
`name ↦ name-PERP` in the exchange-to-internal map.  `i` is the running
`forEach` index. -/
def applyPerpUniverseAux (a2i : List (String × Nat))
    (e2i : List (String × String)) (i : Nat) :
    List PerpAsset → List (String × Nat) × List (String × String)
  | [] => (a2i, e2i)
  | asset :: rest =>
    applyPerpUniverseAux
      (mapSet a2i (asset.name ++ "-PERP") i)
      (mapSet e2i asset.name (asset.name ++ "-PERP")) (i + 1) rest

/-- `spotMeta[0].tokens.forEach(token => if (token.name) add)`: collect
the names of all spot tokens (skipping falsy, i.e. empty, names). -/
def applySpotTokens (st : List String) : List SpotToken → List String
  | [] => st
  | t :: rest => applySpotTokens (if t.name == "" then st else setAdd st t.name) rest

/-- `spotMeta[0].universe.forEach(market => ...)`: resolve the base and
quote token indices via `tokens.find`; when both resolve, bind
`BASE-QUOTE ↦ 10000 + market.index` and `market.name ↦ BASE-QUOTE`. -/
def applySpotUniverse (a2i : List (String × Nat))
    (e2i : List (String × String)) (ts : List SpotToken) :
    List SpotMarket → List (String × Nat) × List (String × String)
  | [] => (a2i, e2i)
  | m :: rest =>
    match ts.find? (fun t => t.index == m.tokenBase),
          ts.find? (fun t => t.index == m.tokenQuote) with
    | some b, some q =>
      let bq := b.name ++ "-" ++ q.name
      applySpotUniverse (mapSet a2i bq (10000 + m.index))
        (mapSet e2i m.name bq) ts rest
    | _, _ => applySpotUniverse a2i e2i ts rest

/-- The internal symbols generated by the spot universe, in processing
order (only markets whose base and quote tokens both resolve). -/
def spotKeys (ts : List SpotToken) : List SpotMarket → List String
  | [] => []
  | m :: rest =>
    match ts.find? (fun t => t.index == m.tokenBase),
          ts.find? (fun t => t.index == m.tokenQuote) with
    | some b, some q => (b.name ++ "-" ++ q.name) :: spotKeys ts rest
    | _, _ => spotKeys ts rest

/-- `stopPeriodicRefresh()`: clear the interval when one is active. -/
def stopPeriodicRefresh (s : SCState) : SCState :=
  if s.refreshIntervalActive then { s with refreshIntervalActive := false } else s

/-- `checkMaxFailures()`: stop the periodic refresh once
`consecutiveFailures ≥ maxConsecutiveFailures`. -/
def checkMaxFailures (s : SCState) : SCState :=
  if s.consecutiveFailures ≥ s.maxConsecutiveFailures then stopPeriodicRefresh s
  else s

/-- The `catch` block of `refreshAssetMaps`: increment the
consecutive-failure counter, run `checkMaxFailures`, re-throw. -/
def refreshFailure (s : SCState) (e : RefreshError) :
    SCState × Except RefreshError Unit :=
  (checkMaxFailures { s with consecutiveFailures := s.consecutiveFailures + 1 },
   Except.error e)

/-- `refreshAssetMaps()` (symbolConversion.ts, failure-counting version):
validate both responses (perpetual first), then clear and rebuild the
two maps and the spot-token set, resetting the failure counter on
success; any failure increments the counter, runs `checkMaxFailures`
and re-throws. -/
def refreshAssetMaps (s : SCState) (fo : FetchOutcome) :
    SCState × Except RefreshError Unit :=
  match fo with
  | .networkFailure => refreshFailure s .networkError
  | .responses perp spot =>
    match perp with
    | none => refreshFailure s .invalidPerpMetadata
    | some pm =>
      match pm.univ with
      | none => refreshFailure s .invalidPerpMetadata
      | some pu =>
        match spot with
        | none => refreshFailure s .invalidSpotMetadata
        | some sm =>
          match sm.tokens, sm.univ with
          | some ts, some su =>
            let maps1 := applyPerpUniverseAux [] [] 0 pu
            let st := applySpotTokens [] ts
            let maps2 := applySpotUniverse maps1.1 maps1.2 ts su
            ({ s with assetToIndexMap := maps2.1,
                      exchangeToInternalNameMap := maps2.2,
                      spotTokensSet := st,
                      consecutiveFailures := 0 }, Except.ok ())
          | _, _ => refreshFailure s .invalidSpotMetadata

/-- One firing of the `setInterval` callback installed by
`startPeriodicRefresh()`: run `refreshAssetMaps` and, in the attached
`.catch` handler, increment the consecutive-failure counter AGAIN and
stop the interval once it reaches the maximum.  Fires only while the
interval is active. -/
def periodicTick (s : SCState) (fo : FetchOutcome) : SCState :=
  if s.refreshIntervalActive then
    match refreshAssetMaps s fo with
    | (s1, Except.ok _) => s1
    | (s1, Except.error _) =>
      let s2 := { s1 with consecutiveFailures := s1.consecutiveFailures + 1 }
      if s2.consecutiveFailures ≥ s2.maxConsecutiveFailures then
        stopPeriodicRefresh s2
      else s2
  else s

/-- The `ensureInitialized()` error message. -/
def notInitializedMsg : String :=
  "SymbolConversion must be initialized before use. Call initialize() first."

/-- `getAssetIndex(assetSymbol)`: guarded map lookup. -/
def getAssetIndex (s : SCState) (assetSymbol : String) :
    Except String (Option Nat) :=
  if s.initialized then Except.ok (mapGet s.assetToIndexMap assetSymbol)
  else Except.error notInitializedMsg

/-- `getExchangeName(internalName)`: iterate the exchange-to-internal
map in insertion order and return the first exchange name whose value
equals `internalName`. -/
def getExchangeName (s : SCState) (internalName : String) :
    Except String (Option String) :=
  if s.initialized then
    Except.ok ((s.exchangeToInternalNameMap.find?
      (fun p => p.2 == internalName)).map Prod.fst)
  else Except.error notInitializedMsg

/-- JSON-like payload values handled by the response normalizer.
Numbers are modelled as exact rationals: the spec's numeric examples
are exactly representable, and IEEE rounding is outside the claims. -/
inductive JValue where
  | vnull
  | vbool (b : Bool)
  | vnum (q : ℚ)
  | vstr (s : String)
  | varr (elems : List JValue)
  | vobj (fields : List (String × JValue))
deriving Repr

/-- Drop one leading minus sign (the `-?` of both patterns). -/
def stripLeadingMinus (cs : List Char) : List Char :=
  match cs with
  | '-' :: rest => rest
  | cs => cs

/-- Test against `^-?\d+$`: optional minus, then one or more digits. -/
def matchesIntPattern (str : String) : Bool :=
  let cs := stripLeadingMinus str.data
  !cs.isEmpty && cs.all Char.isDigit

/-- Test against `^-?\d*\.\d+$`: optional minus, zero or more digits, a
literal dot, then one or more digits.  Since `\d` never matches a dot,
taking the longest digit prefix and requiring a dot next is exact. -/
def matchesFloatPattern (str : String) : Bool :=
  let cs := stripLeadingMinus str.data
  let sp := cs.span Char.isDigit
  match sp.2 with
  | '.' :: frac => !frac.isEmpty && frac.all Char.isDigit
  | _ => false

/-- Value of a digit string, most significant first. -/
def digitsVal (cs : List Char) : Nat :=
  cs.foldl (fun acc c => 10 * acc + (c.toNat - '0'.toNat)) 0

/-- `parseInt(value, 10)` on a string matching `^-?\d+$`. -/
def parseIntJS (str : String) : Int :=
  match str.data with
  | '-' :: rest => - (digitsVal rest : Int)
  | cs => (digitsVal cs : Int)

/-- `parseFloat(value)` on a string matching `^-?\d*\.\d+$`, as the
exact decimal value. -/
def parseFloatJS (str : String) : ℚ :=
  let neg := match str.data with
             | '-' :: _ => true
             | _ => false
  let cs := stripLeadingMinus str.data
  let sp := cs.span Char.isDigit
  let frac := match sp.2 with
              | '.' :: f => f
              | _ => []
  let q : ℚ := (digitsVal sp.1 : ℚ) + (digitsVal frac : ℚ) / (10 : ℚ) ^ frac.length
  if neg then -q else q

/-- `convertToNumber(value)` (symbolConversion.ts): strings matching
`^-?\d+$` parse as integers, strings matching `^-?\d*\.\d+$` parse as
floats, everything else (other strings and all non-strings) is returned
unchanged. -/
def convertToNumber (v : JValue) : JValue :=
  match v with
  | .vstr str =>
    if matchesIntPattern str then .vnum ((parseIntJS str : ℤ) : ℚ)
    else if matchesFloatPattern str then .vnum (parseFloatJS str)
    else .vstr str
  | v => v

/-- JavaScript `String.endsWith`. -/
def strEndsWith (str suf : String) : Bool :=
  suf.data.isSuffixOf str.data

/-- `this.exchangeToInternalNameMap.get(symbol) || symbol`: forward
lookup with fall-through to the input on `undefined` (or the falsy
empty string). -/
def resolveForward (s : SCState) (symbol : String) : String :=
  match mapGet s.exchangeToInternalNameMap symbol with
  | some v => if v == "" then symbol else v
  | none => symbol

/-- The `symbolMode` handling at the end of `convertSymbol`: in
`"PERP"` mode, keep `rSymbol` when it already ends in `-PERP` and
otherwise append `-PERP` to the ORIGINAL `symbol` (the source writes
`rSymbol = symbol + '-PERP'`); in `"SPOT"` mode, return the original
`symbol` whenever it is a known spot token; otherwise `rSymbol`. -/
def applySymbolMode (s : SCState) (symbol rSymbol symbolMode : String) : String :=
  if symbolMode == "PERP" then
    if strEndsWith rSymbol "-PERP" then rSymbol else symbol ++ "-PERP"
  else if symbolMode == "SPOT" then
    if s.spotTokensSet.contains symbol then symbol else rSymbol
  else rSymbol

/-- Body of `convertSymbol(symbol, mode, symbolMode)` after the
initialization guard.  In `"reverse"` mode a successful reverse lookup
returns the exchange name immediately, skipping the `symbolMode`
handling (the source's early `return key`). -/
def convertSymbolBody (s : SCState) (symbol mode symbolMode : String) : String :=
  if mode == "reverse" then
    match s.exchangeToInternalNameMap.find? (fun p => p.2 == symbol) with
    | some p => p.1
    | none => applySymbolMode s symbol symbol symbolMode
  else applySymbolMode s symbol (resolveForward s symbol) symbolMode

/-- `convertSymbol` with its `ensureInitialized()` guard. -/
def convertSymbol (s : SCState) (symbol mode symbolMode : String) :
    Except String String :=
  if s.initialized then Except.ok (convertSymbolBody s symbol mode symbolMode)
  else Except.error notInitializedMsg

/-- The `key === 'side'` branch of `convertSymbolsInObject`:
`'A' ↦ 'sell'`, `'B' ↦ 'buy'`, anything else (including non-strings,
which `===` never equates with `'A'`/`'B'`) passes through unchanged. -/
def sideRewrite (v : JValue) : JValue :=
  match v with
  | .vstr str =>
    if str == "A" then .vstr "sell"
    else if str == "B" then .vstr "buy"
    else .vstr str
  | v => v

/-- `this.convertSymbol(value as string, '', symbolMode)` applied to a
field listed in `symbolsFields`.  String values go through the symbol
conversion; a non-string value is returned unchanged (its `Map.get`
lookup misses and `|| symbol` hands the raw value back — the claims
never exercise the `"PERP"`-mode `endsWith` TypeError corner on
non-strings). -/
def convertFieldSymbolValue (s : SCState) (symbolMode : String) (v : JValue) :
    JValue :=
  match v with
  | .vstr str => .vstr (convertSymbolBody s str "" symbolMode)
  | v => v

mutual

/-- `convertSymbolsInObject(obj, symbolsFields, symbolMode)` recursion
on one value: non-objects go through `convertToNumber`, arrays map the
walker over their elements, plain objects rebuild each field. -/
def convertValue (s : SCState) (fields : List String) (symbolMode : String) :
    JValue → JValue
  | .varr xs => .varr (convertList s fields symbolMode xs)
  | .vobj kvs => .vobj (convertFields s fields symbolMode kvs)
  | v => convertToNumber v

/-- `obj.map(item => this.convertSymbolsInObject(item, ...))`. -/
def convertList (s : SCState) (fields : List String) (symbolMode : String) :
    List JValue → List JValue
  | [] => []
  | x :: xs => convertValue s fields symbolMode x :: convertList s fields symbolMode xs

/-- The `for (const [key, value] of Object.entries(obj))` loop: fields
named in `symbolsFields` get symbol conversion, then a field whose key
is exactly `side` gets the A/B rewrite, and every other field recurses. -/
def convertFields (s : SCState) (fields : List String) (symbolMode : String) :
    List (String × JValue) → List (String × JValue)
  | [] => []
  | (k, v) :: rest =>
    let v1 :=
      if fields.contains k then convertFieldSymbolValue s symbolMode v
      else if k == "side" then sideRewrite v
      else convertValue s fields symbolMode v
    (k, v1) :: convertFields s fields symbolMode rest

end

/-- `convertSymbolsInObject` with its `ensureInitialized()` guard. -/
def convertSymbolsInObject (s : SCState) (obj : JValue) (fields : List String)
    (symbolMode : String) : Except String JValue :=
  if s.initialized then Except.ok (convertValue s fields symbolMode obj)
  else Except.error notInitializedMsg

/-- The observable effect of starting one `SymbolConversion`
initialization: `scDone` is `this.initialized`, `physicalRefreshes`
counts metadata round trips issued so far. -/
structure SCInitState where
  scDone : Bool
  physicalRefreshes : Nat
deriving DecidableEq, Repr

/-- The synchronous prefix of `SymbolConversion`'s async `initialize()`
method, up to its first suspension point: the `if (this.initialized)
return;` check and, when not initialized, the call into
`refreshAssetMaps()` whose metadata fetch (a physical round trip) is
issued before the method suspends.  `this.initialized` is only set
after the awaited refresh completes, so it is still `false` while a
first call is suspended.  Returns whether a refresh was issued. -/
def scInitStart (s : SCInitState) : SCInitState × Bool :=
  if s.scDone then (s, false)
  else ({ s with physicalRefreshes := s.physicalRefreshes + 1 }, true)

/-- Fields of the `Hyperliquid` client driving its `initialize()`
single-flight guard: `_initialized`, the `_initializing` in-flight
promise (identified by a number), the owned `SymbolConversion`
initialization state, and a fresh-promise counter. -/
structure HLState where
  hlDone : Bool
  hlInFlight : Option Nat
  sc : SCInitState
  nextPromiseId : Nat
deriving DecidableEq, Repr

/-- What a call to `Hyperliquid.initialize()` returns: an immediately
resolved promise (already initialized), the existing in-flight promise,
or a newly started one. -/
inductive HLInitOutcome where
  | alreadyDone
  | joined (p : Nat)
  | started (p : Nat)
deriving DecidableEq, Repr

/-- The synchronous prefix of `Hyperliquid.initialize()` (unnamed
source, lines 104-135): return early when `_initialized`; return the
`_initializing` promise when one is in flight; otherwise create a new
promise whose body synchronously reaches
`this.symbolConversion.initialize()` (issuing the metadata round trip)
before suspending, and store it in `_initializing`. -/
def hlInitStep (s : HLState) : HLState × HLInitOutcome :=
  if s.hlDone then (s, .alreadyDone)
  else
    match s.hlInFlight with
    | some p => (s, .joined p)
    | none =>
      let p := s.nextPromiseId
      let sc1 := (scInitStart s.sc).1
      ({ s with hlInFlight := some p, sc := sc1, nextPromiseId := p + 1 },
       .started p)

/-- Does a fetch outcome fail the shape validation of
`refreshAssetMaps` (missing response, missing first element, or a
required field that is absent / not an array)? -/
def metadataInvalid : FetchOutcome → Bool
  | .networkFailure => false
  | .responses none _ => true
  | .responses (some pm) spot =>
    pm.univ.isNone ||
    (match spot with
     | none => true
     | some sm => sm.tokens.isNone || sm.univ.isNone)

/-- Exchange display names of the spot markets whose base and quote
tokens both resolve (the markets that insert into the
exchange-to-internal map), in processing order. -/
def spotMarketNames (ts : List SpotToken) : List SpotMarket → List String
  | [] => []
  | m :: rest =>
    match ts.find? (fun t => t.index == m.tokenBase),
          ts.find? (fun t => t.index == m.tokenQuote) with
    | some _, some _ => m.name :: spotMarketNames ts rest
    | _, _ => spotMarketNames ts rest

/-- A `SymbolConversion` whose `initialize()` has completed: empty maps
(about to be refreshed), periodic refresh running, default
`maxConsecutiveFailures = 5`, no failures yet. -/
def scFresh : SCState :=
  { assetToIndexMap := [], exchangeToInternalNameMap := [], spotTokensSet := [],
    refreshIntervalActive := true, initialized := true,
    consecutiveFailures := 0, maxConsecutiveFailures := 5 }

/-- The spec's example token listing:
`[{index:0,name:"PURR"},{index:1,name:"USDC"}]`. -/
def purrTokens : List SpotToken :=
  [{ index := 0, name := "PURR" }, { index := 1, name := "USDC" }]

/-- The spec's example spot market `{index:0, tokens:[0,1]}`, displayed
by the exchange as `PURR/USDC`. -/
def purrMarket : SpotMarket :=
  { name := "PURR/USDC", index := 0, tokenBase := 0, tokenQuote := 1 }

/-- A successful fetch carrying an empty perpetual universe and the
example spot metadata. -/
def purrOutcome : FetchOutcome :=
  .responses (some { univ := some [] })
    (some { tokens := some purrTokens, univ := some [purrMarket] })

/-- The cache state after a successful refresh on `purrOutcome`. -/
def purrState : SCState := (refreshAssetMaps scFresh purrOutcome).1

/-- A successful fetch with one perpetual asset (`BTC`) and the example
spot metadata. -/
def btcPurrOutcome : FetchOutcome :=
  .responses (some { univ := some [{ name := "BTC" }] })
    (some { tokens := some purrTokens, univ := some [purrMarket] })

/-- A spot market whose exchange display name is the raw id `@1`. -/
def at1Market : SpotMarket :=
  { name := "@1", index := 0, tokenBase := 0, tokenQuote := 1 }

/-- Fetch outcome producing the map `@1 ↦ PURR-USDC`. -/
def at1Outcome : FetchOutcome :=
  .responses (some { univ := some [] })
    (some { tokens := some purrTokens, univ := some [at1Market] })

/-- The cache state after a successful refresh on `at1Outcome`. -/
def at1State : SCState := (refreshAssetMaps scFresh at1Outcome).1

/-- A response pair whose spot metadata lacks its arrays. -/
def invalidSpotOutcome : FetchOutcome :=
  .responses (some { univ := some [{ name := "BTC" }] }) none

/-- A freshly constructed, not yet initialized `Hyperliquid` client. -/
def hlFresh : HLState :=
  { hlDone := false, hlInFlight := none,
    sc := { scDone := false, physicalRefreshes := 0 }, nextPromiseId := 0 }

/-- C1: for an unexpected close with the default configuration, reconnect
attempt `n` (1 ≤ n ≤ 5) is scheduled after `min(1000 * 2^(n-1), 30000)` ms,
the full failure chain schedules exactly the delays
1000, 2000, 4000, 8000, 16000 ms, a 6th attempt never fires however much
fuel the chain is given, `maxReconnectAttemptsReached` is emitted exactly
once when the budget is exhausted, and a successful reconnection
(`handleOpen`) resets the attempt counter to 0. -/
theorem reconnect_backoffBudgetAndReset (n : Nat) (h1 : 1 ≤ n)
    (h2 : n ≤ wsConnectedDefault.maxReconnectAttempts) :
    (reconnect { wsConnectedDefault with
                 connected := false, reconnectAttempts := n - 1 }).scheduledDelay
      = some (min (1000 * 2 ^ (n - 1)) 30000)
    ∧ reconnectChain { wsConnectedDefault with connected := false } 6
        = ([1000, 2000, 4000, 8000, 16000], 1)
    ∧ reconnectChain { wsConnectedDefault with connected := false } 100
        = ([1000, 2000, 4000, 8000, 16000], 1)
    ∧ (∀ s : WSState, (handleOpen s).reconnectAttempts = 0) := by
  refine ⟨?_, by decide, by decide, fun s => rfl⟩
  have h2a : n ≤ 5 := h2
  have h3 : n - 1 < 5 := by omega
  simp [reconnect, wsConnectedDefault, h3]

/-- Witness for C1 at the concrete attempt n = 3. -/
theorem reconnect_backoffBudgetAndReset_witness :
    (1 ≤ 3 ∧ 3 ≤ wsConnectedDefault.maxReconnectAttempts)
    ∧ ((reconnect { wsConnectedDefault with
                    connected := false, reconnectAttempts := 3 - 1 }).scheduledDelay
        = some (min (1000 * 2 ^ (3 - 1)) 30000)
      ∧ reconnectChain { wsConnectedDefault with connected := false } 6
          = ([1000, 2000, 4000, 8000, 16000], 1)
      ∧ reconnectChain { wsConnectedDefault with connected := false } 100
          = ([1000, 2000, 4000, 8000, 16000], 1)
      ∧ (∀ s : WSState, (handleOpen s).reconnectAttempts = 0)) :=
  ⟨⟨by decide, by decide⟩,
   reconnect_backoffBudgetAndReset 3 (by decide) (by decide)⟩

/-- C2 counterexample: starting from a connected default client, an
explicit `close()` is followed by the transport close event, whose
handler unconditionally calls `reconnect()`; a reconnection attempt IS
initiated (delay 1000 ms, counter goes to 1), contradicting the claim
that no reconnection attempt ever follows an explicit `close()`. -/
theorem close_then_close_event_schedules_reconnect :
    (handleClose (close wsConnectedDefault)).scheduledDelay = some 1000
    ∧ (handleClose (close wsConnectedDefault)).state.reconnectAttempts = 1 := by
  decide

/-- C2 (amended): `close()` stops the heartbeat timer and clears the
connected/connecting flags, but reconnection is NOT suppressed: the
transport close event that follows an explicit `close()` runs the same
`handleClose`/`reconnect` path as an unexpected close, scheduling a
backoff reconnect attempt whenever the attempt budget is not yet
exhausted. -/
theorem close_stops_heartbeat_but_reconnect_not_suppressed (s : WSState)
    (h : s.reconnectAttempts < s.maxReconnectAttempts) :
    (close s).pingIntervalActive = false
    ∧ (s.wsPresent = true →
        (close s).connected = false ∧ (close s).connecting = false)
    ∧ (handleClose (close s)).scheduledDelay
        = some (min (s.initialReconnectDelay * 2 ^ s.reconnectAttempts)
            s.maxReconnectDelay)
    ∧ (handleClose (close s)).emittedMaxReached = false := by
  unfold close handleClose reconnect
  cases hw : s.wsPresent <;> simp [hw, h]

/-- Witness for the amended C2 at the connected default client. -/
theorem close_stops_heartbeat_witness :
    (close wsConnectedDefault).pingIntervalActive = false
    ∧ (wsConnectedDefault.wsPresent = true →
        (close wsConnectedDefault).connected = false
        ∧ (close wsConnectedDefault).connecting = false)
    ∧ (handleClose (close wsConnectedDefault)).scheduledDelay
        = some (min (wsConnectedDefault.initialReconnectDelay
            * 2 ^ wsConnectedDefault.reconnectAttempts)
            wsConnectedDefault.maxReconnectDelay)
    ∧ (handleClose (close wsConnectedDefault)).emittedMaxReached = false :=
  close_stops_heartbeat_but_reconnect_not_suppressed wsConnectedDefault (by decide)

/-- C7: subscription accounting preserves `0 ≤ count ≤ 1000`:
increment refuses (returns `false`, state unchanged) once the cap is
reached and otherwise adds exactly one returning `true`; decrement
subtracts exactly one while positive and never goes below zero. -/
theorem subscriptionCount_invariant (s : WSState)
    (h : s.subscriptionCount ≤ MAX_SUBSCRIPTIONS) :
    (incrementSubscriptionCount s).1.subscriptionCount ≤ MAX_SUBSCRIPTIONS
    ∧ (decrementSubscriptionCount s).subscriptionCount ≤ MAX_SUBSCRIPTIONS
    ∧ (s.subscriptionCount ≥ MAX_SUBSCRIPTIONS →
        incrementSubscriptionCount s = (s, false))
    ∧ (s.subscriptionCount < MAX_SUBSCRIPTIONS →
        (incrementSubscriptionCount s).1.subscriptionCount
          = s.subscriptionCount + 1
        ∧ (incrementSubscriptionCount s).2 = true)
    ∧ (0 < s.subscriptionCount →
        (decrementSubscriptionCount s).subscriptionCount
          = s.subscriptionCount - 1)
    ∧ (s.subscriptionCount = 0 → decrementSubscriptionCount s = s) := by
  have h1000 : s.subscriptionCount ≤ 1000 := h
  unfold incrementSubscriptionCount decrementSubscriptionCount MAX_SUBSCRIPTIONS
  refine ⟨?_, ?_, ?_, ?_, ?_, ?_⟩
  · by_cases hc : s.subscriptionCount ≥ 1000
    · rw [if_pos hc]; exact h1000
    · rw [if_neg hc]
      show s.subscriptionCount + 1 ≤ 1000
      omega
  · by_cases hc : 0 < s.subscriptionCount
    · rw [if_pos hc]
      show s.subscriptionCount - 1 ≤ 1000
      omega
    · rw [if_neg hc]; exact h1000
  · intro hc; rw [if_pos hc]
  · intro hc
    rw [if_neg (by omega : ¬ s.subscriptionCount ≥ 1000)]
    exact ⟨rfl, rfl⟩
  · intro hc; rw [if_pos hc]
  · intro hc; rw [if_neg (by omega)]

/-- Witness for C7 at a client holding 1000 subscriptions (the cap). -/
theorem subscriptionCount_invariant_witness :
    ({ wsConnectedDefault with subscriptionCount := 1000 } : WSState).subscriptionCount
        ≤ MAX_SUBSCRIPTIONS
    ∧ ((incrementSubscriptionCount
          { wsConnectedDefault with subscriptionCount := 1000 }).1.subscriptionCount
        ≤ MAX_SUBSCRIPTIONS
      ∧ (decrementSubscriptionCount
          { wsConnectedDefault with subscriptionCount := 1000 }).subscriptionCount
        ≤ MAX_SUBSCRIPTIONS
      ∧ (({ wsConnectedDefault with subscriptionCount := 1000 } : WSState).subscriptionCount
            ≥ MAX_SUBSCRIPTIONS →
          incrementSubscriptionCount { wsConnectedDefault with subscriptionCount := 1000 }
            = ({ wsConnectedDefault with subscriptionCount := 1000 }, false))
      ∧ (({ wsConnectedDefault with subscriptionCount := 1000 } : WSState).subscriptionCount
            < MAX_SUBSCRIPTIONS →
          (incrementSubscriptionCount
            { wsConnectedDefault with subscriptionCount := 1000 }).1.subscriptionCount
            = ({ wsConnectedDefault with subscriptionCount := 1000 } : WSState).subscriptionCount + 1
          ∧ (incrementSubscriptionCount
              { wsConnectedDefault with subscriptionCount := 1000 }).2 = true)
      ∧ (0 < ({ wsConnectedDefault with subscriptionCount := 1000 } : WSState).subscriptionCount →
          (decrementSubscriptionCount
            { wsConnectedDefault with subscriptionCount := 1000 }).subscriptionCount
            = ({ wsConnectedDefault with subscriptionCount := 1000 } : WSState).subscriptionCount - 1)
      ∧ (({ wsConnectedDefault with subscriptionCount := 1000 } : WSState).subscriptionCount = 0 →
          decrementSubscriptionCount { wsConnectedDefault with subscriptionCount := 1000 }
            = { wsConnectedDefault with subscriptionCount := 1000 })) :=
  ⟨by decide,
   subscriptionCount_invariant { wsConnectedDefault with subscriptionCount := 1000 } (by decide)⟩

/-- Failure path of `refreshAssetMaps`: the maps are untouched, the
counter grows by exactly one, and the error is re-thrown. -/
theorem refreshFailure_fields (s : SCState) (e : RefreshError) :
    (refreshFailure s e).1.assetToIndexMap = s.assetToIndexMap
    ∧ (refreshFailure s e).1.exchangeToInternalNameMap = s.exchangeToInternalNameMap
    ∧ (refreshFailure s e).1.spotTokensSet = s.spotTokensSet
    ∧ (refreshFailure s e).1.consecutiveFailures = s.consecutiveFailures + 1
    ∧ (refreshFailure s e).2 = Except.error e := by
  unfold refreshFailure checkMaxFailures stopPeriodicRefresh
  refine ⟨?_, ?_, ?_, ?_, ?_⟩ <;> (try split) <;> (try split) <;> rfl

/-- Validation failures leave every map untouched and reject with one of
the two invalid-metadata errors. -/
theorem refresh_invalid_behavior (s : SCState) (fo : FetchOutcome)
    (h : metadataInvalid fo = true) :
    (refreshAssetMaps s fo).1.assetToIndexMap = s.assetToIndexMap
    ∧ (refreshAssetMaps s fo).1.exchangeToInternalNameMap = s.exchangeToInternalNameMap
    ∧ (refreshAssetMaps s fo).1.spotTokensSet = s.spotTokensSet
    ∧ ((refreshAssetMaps s fo).2 = Except.error RefreshError.invalidPerpMetadata
       ∨ (refreshAssetMaps s fo).2 = Except.error RefreshError.invalidSpotMetadata) := by
  rcases fo with _ | ⟨perp, spot⟩
  · simp [metadataInvalid] at h
  · rcases perp with _ | ⟨_ | pu⟩
    · have hf := refreshFailure_fields s RefreshError.invalidPerpMetadata
      exact ⟨by simpa [refreshAssetMaps] using hf.1,
             by simpa [refreshAssetMaps] using hf.2.1,
             by simpa [refreshAssetMaps] using hf.2.2.1,
             Or.inl (by simpa [refreshAssetMaps] using hf.2.2.2.2)⟩
    · have hf := refreshFailure_fields s RefreshError.invalidPerpMetadata
      exact ⟨by simpa [refreshAssetMaps] using hf.1,
             by simpa [refreshAssetMaps] using hf.2.1,
             by simpa [refreshAssetMaps] using hf.2.2.1,
             Or.inl (by simpa [refreshAssetMaps] using hf.2.2.2.2)⟩
    · rcases spot with _ | ⟨_ | ts, _ | su⟩
      · have hf := refreshFailure_fields s RefreshError.invalidSpotMetadata
        exact ⟨by simpa [refreshAssetMaps] using hf.1,
               by simpa [refreshAssetMaps] using hf.2.1,
               by simpa [refreshAssetMaps] using hf.2.2.1,
               Or.inr (by simpa [refreshAssetMaps] using hf.2.2.2.2)⟩
      · have hf := refreshFailure_fields s RefreshError.invalidSpotMetadata
        exact ⟨by simpa [refreshAssetMaps] using hf.1,
               by simpa [refreshAssetMaps] using hf.2.1,
               by simpa [refreshAssetMaps] using hf.2.2.1,
               Or.inr (by simpa [refreshAssetMaps] using hf.2.2.2.2)⟩
      · have hf := refreshFailure_fields s RefreshError.invalidSpotMetadata
        exact ⟨by simpa [refreshAssetMaps] using hf.1,
               by simpa [refreshAssetMaps] using hf.2.1,
               by simpa [refreshAssetMaps] using hf.2.2.1,
               Or.inr (by simpa [refreshAssetMaps] using hf.2.2.2.2)⟩
      · have hf := refreshFailure_fields s RefreshError.invalidSpotMetadata
        exact ⟨by simpa [refreshAssetMaps] using hf.1,
               by simpa [refreshAssetMaps] using hf.2.1,
               by simpa [refreshAssetMaps] using hf.2.2.1,
               Or.inr (by simpa [refreshAssetMaps] using hf.2.2.2.2)⟩
      · simp [metadataInvalid] at h

/-- Any failing refresh increments the consecutive-failure counter by
exactly one. -/
theorem refresh_error_increments (s : SCState) (fo : FetchOutcome) (e : RefreshError)
    (h : (refreshAssetMaps s fo).2 = Except.error e) :
    (refreshAssetMaps s fo).1.consecutiveFailures = s.consecutiveFailures + 1 := by
  rcases fo with _ | ⟨perp, spot⟩
  · simpa [refreshAssetMaps] using
      (refreshFailure_fields s RefreshError.networkError).2.2.2.1
  · rcases perp with _ | ⟨_ | pu⟩
    · simpa [refreshAssetMaps] using
        (refreshFailure_fields s RefreshError.invalidPerpMetadata).2.2.2.1
    · simpa [refreshAssetMaps] using
        (refreshFailure_fields s RefreshError.invalidPerpMetadata).2.2.2.1
    · rcases spot with _ | ⟨_ | ts, _ | su⟩
      · simpa [refreshAssetMaps] using
          (refreshFailure_fields s RefreshError.invalidSpotMetadata).2.2.2.1
      · simpa [refreshAssetMaps] using
          (refreshFailure_fields s RefreshError.invalidSpotMetadata).2.2.2.1
      · simpa [refreshAssetMaps] using
          (refreshFailure_fields s RefreshError.invalidSpotMetadata).2.2.2.1
      · simpa [refreshAssetMaps] using
          (refreshFailure_fields s RefreshError.invalidSpotMetadata).2.2.2.1
      · simp [refreshAssetMaps] at h

/-- A fully valid response pair rebuilds both maps and the token set
and resets the counter. -/
theorem refresh_success_eq (s : SCState) (pu : List PerpAsset) (ts : List SpotToken)
    (su : List SpotMarket) :
    refreshAssetMaps s (.responses (some ⟨some pu⟩) (some ⟨some ts, some su⟩))
      = ({ s with
            assetToIndexMap := (applySpotUniverse (applyPerpUniverseAux [] [] 0 pu).1
              (applyPerpUniverseAux [] [] 0 pu).2 ts su).1,
            exchangeToInternalNameMap := (applySpotUniverse (applyPerpUniverseAux [] [] 0 pu).1
              (applyPerpUniverseAux [] [] 0 pu).2 ts su).2,
            spotTokensSet := applySpotTokens [] ts,
            consecutiveFailures := 0 }, Except.ok ()) := rfl

/-- C3: a refresh whose fetched metadata lacks the required arrays
rejects with an invalid-metadata error and leaves the maps unmodified;
every failure increments the consecutive-failure counter by exactly one
and re-throws; a successful refresh replaces both maps and the
spot-token set and resets the counter to 0. -/
theorem refreshAssetMaps_contract (s : SCState) (fo : FetchOutcome) :
    (metadataInvalid fo = true →
      (refreshAssetMaps s fo).1.assetToIndexMap = s.assetToIndexMap
      ∧ (refreshAssetMaps s fo).1.exchangeToInternalNameMap = s.exchangeToInternalNameMap
      ∧ (refreshAssetMaps s fo).1.spotTokensSet = s.spotTokensSet
      ∧ ((refreshAssetMaps s fo).2 = Except.error RefreshError.invalidPerpMetadata
         ∨ (refreshAssetMaps s fo).2 = Except.error RefreshError.invalidSpotMetadata))
    ∧ (∀ e, (refreshAssetMaps s fo).2 = Except.error e →
        (refreshAssetMaps s fo).1.consecutiveFailures = s.consecutiveFailures + 1)
    ∧ (∀ pu ts su,
        fo = FetchOutcome.responses (some ⟨some pu⟩) (some ⟨some ts, some su⟩) →
        (refreshAssetMaps s fo).2 = Except.ok ()
        ∧ (refreshAssetMaps s fo).1.assetToIndexMap
            = (applySpotUniverse (applyPerpUniverseAux [] [] 0 pu).1
                (applyPerpUniverseAux [] [] 0 pu).2 ts su).1
        ∧ (refreshAssetMaps s fo).1.exchangeToInternalNameMap
            = (applySpotUniverse (applyPerpUniverseAux [] [] 0 pu).1
                (applyPerpUniverseAux [] [] 0 pu).2 ts su).2
        ∧ (refreshAssetMaps s fo).1.spotTokensSet = applySpotTokens [] ts
        ∧ (refreshAssetMaps s fo).1.consecutiveFailures = 0) :=
  ⟨fun h => refresh_invalid_behavior s fo h,
   fun e he => refresh_error_increments s fo e he,
   fun pu ts su hfo => by
     subst hfo
     rw [refresh_success_eq]
     exact ⟨rfl, rfl, rfl, rfl, rfl⟩⟩

/-- Witness for C3: the invalid-spot response at a fresh cache. -/
theorem refreshAssetMaps_contract_witness :
    metadataInvalid invalidSpotOutcome = true
    ∧ ((refreshAssetMaps scFresh invalidSpotOutcome).1.assetToIndexMap
          = scFresh.assetToIndexMap
      ∧ (refreshAssetMaps scFresh invalidSpotOutcome).1.exchangeToInternalNameMap
          = scFresh.exchangeToInternalNameMap
      ∧ (refreshAssetMaps scFresh invalidSpotOutcome).1.spotTokensSet
          = scFresh.spotTokensSet
      ∧ ((refreshAssetMaps scFresh invalidSpotOutcome).2
            = Except.error RefreshError.invalidPerpMetadata
         ∨ (refreshAssetMaps scFresh invalidSpotOutcome).2
            = Except.error RefreshError.invalidSpotMetadata)) :=
  ⟨rfl, (refreshAssetMaps_contract scFresh invalidSpotOutcome).1 rfl⟩

/-- C4 (code bug): with the default threshold 5, the periodic-refresh
timer is already disabled after THREE consecutive failing ticks, not
five, because each periodic failure increments `consecutiveFailures`
twice — once in `refreshAssetMaps`' own catch block and once more in
the timer callback's `.catch` handler.  After two failing ticks the
timer is still active; during the third, the counter reaches 5 inside
`refreshAssetMaps` and `checkMaxFailures` stops the timer.  A direct
`refreshAssetMaps` call on the disabled state still executes normally. -/
theorem periodicRefresh_disabled_after_three_failures :
    scFresh.maxConsecutiveFailures = 5
    ∧ (periodicTick scFresh FetchOutcome.networkFailure).refreshIntervalActive = true
    ∧ (periodicTick (periodicTick scFresh FetchOutcome.networkFailure)
        FetchOutcome.networkFailure).refreshIntervalActive = true
    ∧ (periodicTick (periodicTick (periodicTick scFresh FetchOutcome.networkFailure)
        FetchOutcome.networkFailure) FetchOutcome.networkFailure).refreshIntervalActive
        = false
    ∧ (refreshAssetMaps (periodicTick (periodicTick (periodicTick scFresh
        FetchOutcome.networkFailure) FetchOutcome.networkFailure)
        FetchOutcome.networkFailure) btcPurrOutcome).2 = Except.ok ()
    ∧ (refreshAssetMaps (periodicTick (periodicTick (periodicTick scFresh
        FetchOutcome.networkFailure) FetchOutcome.networkFailure)
        FetchOutcome.networkFailure) btcPurrOutcome).1.consecutiveFailures = 0 :=
  ⟨rfl, rfl, rfl, rfl, rfl, rfl⟩

/-- C6 counterexample: `SymbolConversion`'s own `initialize()` has no
in-flight guard — `this.initialized` is still false while the first
call is suspended in its refresh, so a second overlapping call issues a
second physical metadata round trip (two outstanding at once). -/
theorem scInit_overlapping_duplicate_refresh :
    (scInitStart { scDone := false, physicalRefreshes := 0 }).2 = true
    ∧ (scInitStart (scInitStart { scDone := false, physicalRefreshes := 0 }).1).2 = true
    ∧ (scInitStart
        (scInitStart { scDone := false, physicalRefreshes := 0 }).1).1.physicalRefreshes
        = 2 :=
  ⟨rfl, rfl, rfl⟩

/-- C6 (amended): the single-flight guarantee holds one level up, in
`Hyperliquid.initialize()`: while its `_initializing` promise is in
flight, any further call returns that same promise unchanged — no
second physical refresh — as the fresh two-call schedule shows (one
round trip total, second caller joins promise 0). -/
theorem hlInit_single_flight (s : HLState) (p : Nat)
    (h1 : s.hlDone = false) (h2 : s.hlInFlight = some p) :
    hlInitStep s = (s, HLInitOutcome.joined p)
    ∧ (hlInitStep hlFresh).2 = HLInitOutcome.started 0
    ∧ (hlInitStep (hlInitStep hlFresh).1).2 = HLInitOutcome.joined 0
    ∧ (hlInitStep (hlInitStep hlFresh).1).1.sc.physicalRefreshes = 1 := by
  refine ⟨?_, rfl, rfl, rfl⟩
  simp [hlInitStep, h1, h2]

/-- Witness for the amended C6: the state after one fresh call. -/
theorem hlInit_single_flight_witness :
    ((hlInitStep hlFresh).1.hlDone = false
      ∧ (hlInitStep hlFresh).1.hlInFlight = some 0)
    ∧ (hlInitStep (hlInitStep hlFresh).1
        = ((hlInitStep hlFresh).1, HLInitOutcome.joined 0)
      ∧ (hlInitStep hlFresh).2 = HLInitOutcome.started 0
      ∧ (hlInitStep (hlInitStep hlFresh).1).2 = HLInitOutcome.joined 0
      ∧ (hlInitStep (hlInitStep hlFresh).1).1.sc.physicalRefreshes = 1) :=
  ⟨⟨rfl, rfl⟩, hlInit_single_flight (hlInitStep hlFresh).1 0 rfl rfl⟩

/-- C8: `convertToNumber` parses strings matching `^-?\d+$` as
integers, strings matching `^-?\d*\.\d+$` as (exact) floats, and passes
every other value through unchanged — including non-matching strings
and all non-string values — with the spec's concrete examples. -/
theorem convertToNumber_contract :
    (∀ str : String, matchesIntPattern str = true →
      convertToNumber (.vstr str) = .vnum ((parseIntJS str : ℤ) : ℚ))
    ∧ (∀ str : String, matchesIntPattern str = false → matchesFloatPattern str = true →
      convertToNumber (.vstr str) = .vnum (parseFloatJS str))
    ∧ (∀ str : String, matchesIntPattern str = false → matchesFloatPattern str = false →
      convertToNumber (.vstr str) = .vstr str)
    ∧ (∀ q : ℚ, convertToNumber (.vnum q) = .vnum q)
    ∧ (∀ b : Bool, convertToNumber (.vbool b) = .vbool b)
    ∧ convertToNumber .vnull = .vnull
    ∧ (∀ xs, convertToNumber (.varr xs) = .varr xs)
    ∧ (∀ kvs, convertToNumber (.vobj kvs) = .vobj kvs)
    ∧ convertToNumber (.vstr "123") = .vnum 123
    ∧ convertToNumber (.vstr "1.50") = .vnum (3 / 2)
    ∧ convertToNumber (.vstr "abc") = .vstr "abc"
    ∧ convertToNumber (.vstr "1.2.3") = .vstr "1.2.3"
    ∧ convertToNumber (.vstr "-42") = .vnum (-42) := by
  refine ⟨?_, ?_, ?_, fun q => rfl, fun b => rfl, rfl, fun xs => rfl, fun kvs => rfl,
          ?_, ?_, ?_, ?_, ?_⟩
  · intro str h; simp [convertToNumber, h]
  · intro str h1 h2; simp [convertToNumber, h1, h2]
  · intro str h1 h2; simp [convertToNumber, h1, h2]
  · rfl
  · have h1 : matchesIntPattern "1.50" = false := by decide
    have h2 : matchesFloatPattern "1.50" = true := by decide
    have h3 : parseFloatJS "1.50" = 3 / 2 := by
      show (digitsVal ['1'] : ℚ)
          + (digitsVal ['5', '0'] : ℚ) / (10 : ℚ) ^ (['5', '0'].length) = 3 / 2
      norm_num [digitsVal, show Char.toNat '1' - Char.toNat '0' = 1 from rfl,
        show Char.toNat '5' - Char.toNat '0' = 5 from rfl,
        show Char.toNat '0' - Char.toNat '0' = 0 from rfl]
    simp [convertToNumber, h1, h2, h3]
  · rfl
  · rfl
  · rfl

/-- Witness for C8 at the integer example. -/
theorem convertToNumber_contract_witness :
    matchesIntPattern "123" = true
    ∧ convertToNumber (.vstr "123") = .vnum ((parseIntJS "123" : ℤ) : ℚ) :=
  ⟨rfl, convertToNumber_contract.1 "123" rfl⟩

/-- A string obtained by appending a suffix ends with that suffix. -/
theorem strEndsWith_append (a b : String) : strEndsWith (a ++ b) b = true := by
  unfold strEndsWith
  rw [String.data_append, List.isSuffixOf_iff_suffix]
  exact List.suffix_append a.data b.data

/-- C9 counterexample: with the map `@1 ↦ PURR-USDC` (built by a real
refresh), PERP-mode conversion of `@1` resolves to `PURR-USDC`, finds
no `-PERP` suffix, and then appends `-PERP` to the ORIGINAL input,
producing `@1-PERP` — not `PURR-USDC-PERP` as appending to the resolved
symbol would give. -/
theorem convertSymbol_PERP_appends_to_original :
    resolveForward at1State "@1" = "PURR-USDC"
    ∧ convertSymbol at1State "@1" "" "PERP" = Except.ok "@1-PERP"
    ∧ ("@1-PERP" : String) ≠ "PURR-USDC" ++ "-PERP" :=
  ⟨rfl, rfl, by decide⟩

/-- C9 (amended): forward conversion in PERP mode always produces a
result ending in `-PERP`: the resolved symbol when it already carries
the suffix, and otherwise the ORIGINAL input symbol with `-PERP`
appended (not the resolved symbol); in SPOT mode a known spot-token
name is returned unmodified even when a `-PERP` mapping exists for the
same base name. -/
theorem convertSymbol_mode_contract (s : SCState) (sym : String)
    (hInit : s.initialized = true) :
    convertSymbol s sym "" "PERP"
      = Except.ok (if strEndsWith (resolveForward s sym) "-PERP"
                   then resolveForward s sym else sym ++ "-PERP")
    ∧ (∀ r, convertSymbol s sym "" "PERP" = Except.ok r →
        strEndsWith r "-PERP" = true)
    ∧ (s.spotTokensSet.contains sym = true →
        convertSymbol s sym "" "SPOT" = Except.ok sym) := by
  have h1 : convertSymbol s sym "" "PERP"
      = Except.ok (if strEndsWith (resolveForward s sym) "-PERP"
                   then resolveForward s sym else sym ++ "-PERP") := by
    simp [convertSymbol, hInit]
    rfl
  refine ⟨h1, ?_, ?_⟩
  · intro r hr
    rw [h1] at hr
    injection hr with h2
    rw [← h2]
    by_cases hre : strEndsWith (resolveForward s sym) "-PERP" = true
    · rw [if_pos hre]; exact hre
    · rw [if_neg hre]; exact strEndsWith_append sym "-PERP"
  · intro hmem
    simp [convertSymbol, hInit, convertSymbolBody, applySymbolMode, hmem]
    intro h
    exact absurd (by simpa using hmem) h

/-- Witness for the amended C9 at the `@1 ↦ PURR-USDC` cache. -/
theorem convertSymbol_mode_contract_witness :
    at1State.initialized = true
    ∧ (convertSymbol at1State "@1" "" "PERP"
        = Except.ok (if strEndsWith (resolveForward at1State "@1") "-PERP"
                     then resolveForward at1State "@1" else "@1" ++ "-PERP")
      ∧ (∀ r, convertSymbol at1State "@1" "" "PERP" = Except.ok r →
          strEndsWith r "-PERP" = true)
      ∧ (at1State.spotTokensSet.contains "@1" = true →
          convertSymbol at1State "@1" "" "SPOT" = Except.ok "@1")) :=
  ⟨rfl, convertSymbol_mode_contract at1State "@1" rfl⟩

/-- Entries of the object loop: when `side` is not itself listed in
`symbolsFields`, the entry at any position holding key `side` is
rewritten by `sideRewrite`, position by position. -/
theorem convertFields_side_get (s : SCState) (fields : List String)
    (mode : String) (hSide : fields.contains "side" = false) :
    ∀ (kvs : List (String × JValue)) (i : Nat) (v : JValue),
      kvs.get? i = some ("side", v) →
      (convertFields s fields mode kvs).get? i = some ("side", sideRewrite v) := by
  intro kvs
  induction kvs with
  | nil => intro i v h; simp at h
  | cons kv rest ih =>
    intro i v h
    obtain ⟨k0, v0⟩ := kv
    cases i with
    | zero =>
      rw [List.get?_cons_zero] at h
      injection h with h
      injection h with hk hv
      subst hk
      subst hv
      simp only [convertFields, List.get?_cons_zero]
      rw [hSide]
      simp
    | succ n =>
      rw [List.get?_cons_succ] at h
      simp only [convertFields, List.get?_cons_succ]
      exact ih n v h

/-- C10 (amended): after initialization, for any payload object and any
`symbolsFields` that does NOT itself contain `side`, every field whose
key is exactly `side` is rewritten value-wise: `'A' ↦ 'sell'`,
`'B' ↦ 'buy'`, and any other value — string or not — passes through
unchanged, with no recursion and no numeric conversion applied to it.
(A `side` key listed in `symbolsFields` is symbol-converted instead;
the rewrite is NOT applied regardless of `symbolsFields`.) -/
theorem convertSymbolsInObject_side_contract (s : SCState) (fields : List String)
    (mode : String) (kvs : List (String × JValue))
    (hInit : s.initialized = true) (hSide : fields.contains "side" = false) :
    convertSymbolsInObject s (.vobj kvs) fields mode
      = Except.ok (.vobj (convertFields s fields mode kvs))
    ∧ (∀ i v, kvs.get? i = some ("side", v) →
        (convertFields s fields mode kvs).get? i = some ("side", sideRewrite v))
    ∧ sideRewrite (.vstr "A") = .vstr "sell"
    ∧ sideRewrite (.vstr "B") = .vstr "buy"
    ∧ (∀ str : String, str ≠ "A" → str ≠ "B" →
        sideRewrite (.vstr str) = .vstr str)
    ∧ (∀ q : ℚ, sideRewrite (.vnum q) = .vnum q)
    ∧ (∀ b : Bool, sideRewrite (.vbool b) = .vbool b)
    ∧ sideRewrite .vnull = .vnull
    ∧ (∀ xs, sideRewrite (.varr xs) = .varr xs)
    ∧ (∀ kvs2, sideRewrite (.vobj kvs2) = .vobj kvs2) := by
  refine ⟨by simp [convertSymbolsInObject, hInit, convertValue],
          convertFields_side_get s fields mode hSide kvs,
          rfl, rfl, ?_, fun q => rfl, fun b => rfl, rfl, fun xs => rfl,
          fun kvs2 => rfl⟩
  intro str hA hB
  have hA2 : (str == "A") = false := beq_eq_false_iff_ne.mpr hA
  have hB2 : (str == "B") = false := beq_eq_false_iff_ne.mpr hB
  simp [sideRewrite, hA2, hB2]

/-- Witness for the amended C10: default fields, one `side: 'A'` entry. -/
theorem convertSymbolsInObject_side_contract_witness :
    (at1State.initialized = true
      ∧ (["coin", "symbol"] : List String).contains "side" = false)
    ∧ (convertSymbolsInObject at1State (.vobj [("side", .vstr "A")])
          ["coin", "symbol"] ""
        = Except.ok (.vobj (convertFields at1State ["coin", "symbol"] ""
            [("side", .vstr "A")]))
      ∧ (∀ i v, ([("side", JValue.vstr "A")] : List (String × JValue)).get? i
            = some ("side", v) →
          (convertFields at1State ["coin", "symbol"] ""
            [("side", .vstr "A")]).get? i = some ("side", sideRewrite v))
      ∧ sideRewrite (.vstr "A") = .vstr "sell"
      ∧ sideRewrite (.vstr "B") = .vstr "buy"
      ∧ (∀ str : String, str ≠ "A" → str ≠ "B" →
          sideRewrite (.vstr str) = .vstr str)
      ∧ (∀ q : ℚ, sideRewrite (.vnum q) = .vnum q)
      ∧ (∀ b : Bool, sideRewrite (.vbool b) = .vbool b)
      ∧ sideRewrite .vnull = .vnull
      ∧ (∀ xs, sideRewrite (.varr xs) = .varr xs)
      ∧ (∀ kvs2, sideRewrite (.vobj kvs2) = .vobj kvs2)) :=
  ⟨⟨rfl, rfl⟩,
   convertSymbolsInObject_side_contract at1State ["coin", "symbol"] ""
     [("side", .vstr "A")] rfl rfl⟩

/-- C10 counterexample: when `side` IS listed in `symbolsFields`, the
`symbolsFields` branch takes precedence and the A/B rewrite is skipped:
`{side: 'A'}` comes back with `'A'` intact, not `'sell'`.  So the
rewrite does not happen regardless of the `symbolsFields` argument. -/
theorem side_overridden_when_in_symbolsFields :
    convertSymbolsInObject at1State (.vobj [("side", .vstr "A")]) ["side"] ""
      = Except.ok (.vobj [("side", .vstr "A")])
    ∧ JValue.vstr "A" ≠ JValue.vstr "sell" := by
  refine ⟨rfl, ?_⟩
  intro h
  injection h with h2
  exact absurd h2 (by decide)

/-- `find?` at the head when the predicate holds there. -/
theorem find?_cons_true {α : Type} (p : α → Bool) (a : α) (l : List α)
    (h : p a = true) : (a :: l).find? p = some a :=
  List.find?_cons_of_pos l h

/-- `find?` skips a head where the predicate fails. -/
theorem find?_cons_false {α : Type} (p : α → Bool) (a : α) (l : List α)
    (h : p a = false) : (a :: l).find? p = l.find? p :=
  List.find?_cons_of_neg l (by simp [h])

/-- Looking up `k` after the in-place overwrite pass of `mapSet`. -/
theorem findRepl {α : Type} (m : List (String × α)) (k : String) (v : α) :
    (m.map (fun p => if p.1 == k then (k, v) else p)).find? (fun p => p.1 == k)
      = if m.any (fun p => p.1 == k) then some (k, v) else none := by
  induction m with
  | nil => rfl
  | cons a m ih =>
    rw [List.map_cons, List.any_cons]
    cases ha : (a.1 == k) with
    | true =>
      rw [if_pos rfl, find?_cons_true (fun p => p.1 == k) (k, v) _ (by simp)]
      simp
    | false =>
      rw [if_neg (by simp), find?_cons_false (fun p => p.1 == k) a _ ha, ih,
          Bool.false_or]

/-- The overwrite pass for key `k` does not disturb lookups of `k' ≠ k`. -/
theorem findOther {α : Type} (m : List (String × α)) (k k' : String) (v : α)
    (h : k' ≠ k) :
    (m.map (fun p => if p.1 == k then (k, v) else p)).find? (fun p => p.1 == k')
      = m.find? (fun p => p.1 == k') := by
  induction m with
  | nil => rfl
  | cons a m ih =>
    rw [List.map_cons]
    cases ha : (a.1 == k) with
    | true =>
      have hak : a.1 = k := by simpa using ha
      have hk1 : (k == k') = false := by
        rw [beq_eq_false_iff_ne]
        exact fun he => h he.symm
      rw [if_pos rfl, find?_cons_false (fun p => p.1 == k') (k, v) _ hk1, ih,
          find?_cons_false (fun p => p.1 == k') a _ (by
            show (a.1 == k') = false
            rw [hak]
            exact hk1)]
    | false =>
      rw [if_neg (by simp)]
      cases hb : (a.1 == k') with
      | true =>
        rw [find?_cons_true (fun p => p.1 == k') a _ hb,
            find?_cons_true (fun p => p.1 == k') a _ hb]
      | false =>
        rw [find?_cons_false (fun p => p.1 == k') a _ hb,
            find?_cons_false (fun p => p.1 == k') a _ hb, ih]

/-- After `mapSet m k v`, looking up `k` yields `v`. -/
theorem mapGet_mapSet_self {α : Type} (m : List (String × α)) (k : String) (v : α) :
    mapGet (mapSet m k v) k = some v := by
  unfold mapGet mapSet
  cases hA : m.any (fun p => p.1 == k) with
  | true =>
    rw [if_pos rfl, findRepl, if_pos hA]
    rfl
  | false =>
    rw [if_neg (by simp), List.find?_append,
        List.find?_eq_none.mpr (List.any_eq_false.mp hA),
        find?_cons_true (fun p => p.1 == k) (k, v) [] (by simp)]
    rfl

/-- `mapSet m k v` leaves every other key's binding unchanged. -/
theorem mapGet_mapSet_ne {α : Type} (m : List (String × α)) (k k' : String) (v : α)
    (h : k' ≠ k) :
    mapGet (mapSet m k v) k' = mapGet m k' := by
  unfold mapGet mapSet
  cases hA : m.any (fun p => p.1 == k) with
  | true => rw [if_pos rfl, findOther m k k' v h]
  | false =>
    have hkk : (k == k') = false := by
      rw [beq_eq_false_iff_ne]
      exact fun he => h he.symm
    rw [if_neg (by simp), List.find?_append,
        find?_cons_false (fun p => p.1 == k') (k, v) [] hkk]
    show ((m.find? (fun p => p.1 == k')).or (List.find? (fun p => p.1 == k') [])).map
        Prod.snd = _
    rw [List.find?_nil, Option.or_none]

/-- The perpetual pass does not disturb asset-to-index bindings of keys
it never generates. -/
theorem applyPerpAux_a2i_preserve (pu : List PerpAsset) :
    ∀ (a2i : List (String × Nat)) (e2i : List (String × String)) (i : Nat)
      (k : String), (∀ x ∈ pu, x.name ++ "-PERP" ≠ k) →
      mapGet (applyPerpUniverseAux a2i e2i i pu).1 k = mapGet a2i k := by
  induction pu with
  | nil => intro a2i e2i i k _; rfl
  | cons a pu ih =>
    intro a2i e2i i k h
    simp only [applyPerpUniverseAux]
    rw [ih _ _ _ _ (fun x hx => h x (List.mem_cons_of_mem a hx))]
    exact mapGet_mapSet_ne _ _ _ _ (fun he => h a (List.mem_cons_self a pu) he.symm)

/-- The perpetual pass does not disturb exchange-name bindings of names
it never processes. -/
theorem applyPerpAux_e2i_preserve (pu : List PerpAsset) :
    ∀ (a2i : List (String × Nat)) (e2i : List (String × String)) (i : Nat)
      (k : String), (∀ x ∈ pu, x.name ≠ k) →
      mapGet (applyPerpUniverseAux a2i e2i i pu).2 k = mapGet e2i k := by
  induction pu with
  | nil => intro a2i e2i i k _; rfl
  | cons a pu ih =>
    intro a2i e2i i k h
    simp only [applyPerpUniverseAux]
    rw [ih _ _ _ _ (fun x hx => h x (List.mem_cons_of_mem a hx))]
    exact mapGet_mapSet_ne _ _ _ _ (fun he => h a (List.mem_cons_self a pu) he.symm)

/-- With pairwise-distinct generated symbols, the asset at list
position `j` ends up bound to running index `i + j`. -/
theorem applyPerpAux_a2i_get (pu : List PerpAsset) :
    ∀ (a2i : List (String × Nat)) (e2i : List (String × String)) (i j : Nat)
      (a : PerpAsset), pu.get? j = some a →
      (pu.map (fun x => x.name ++ "-PERP")).Nodup →
      mapGet (applyPerpUniverseAux a2i e2i i pu).1 (a.name ++ "-PERP")
        = some (i + j) := by
  induction pu with
  | nil => intro _ _ _ j a h _; simp at h
  | cons b pu ih =>
    intro a2i e2i i j a hget hnd
    rw [List.map_cons, List.nodup_cons] at hnd
    cases j with
    | zero =>
      rw [List.get?_cons_zero] at hget
      injection hget with hba
      subst hba
      simp only [applyPerpUniverseAux]
      have hpres : ∀ x ∈ pu, x.name ++ "-PERP" ≠ b.name ++ "-PERP" := by
        intro x hx he
        exact hnd.1 (he ▸ List.mem_map_of_mem (fun x => x.name ++ "-PERP") hx)
      rw [applyPerpAux_a2i_preserve pu _ _ _ _ hpres, mapGet_mapSet_self,
          Nat.add_zero]
    | succ n =>
      rw [List.get?_cons_succ] at hget
      simp only [applyPerpUniverseAux]
      rw [ih _ _ (i + 1) n a hget hnd.2]
      congr 1
      omega

/-- With pairwise-distinct exchange names, each perpetual asset ends up
mapped to its `-PERP` internal symbol. -/
theorem applyPerpAux_e2i_get (pu : List PerpAsset) :
    ∀ (a2i : List (String × Nat)) (e2i : List (String × String)) (i j : Nat)
      (a : PerpAsset), pu.get? j = some a →
      (pu.map (fun x => x.name)).Nodup →
      mapGet (applyPerpUniverseAux a2i e2i i pu).2 a.name
        = some (a.name ++ "-PERP") := by
  induction pu with
  | nil => intro _ _ _ j a h _; simp at h
  | cons b pu ih =>
    intro a2i e2i i j a hget hnd
    rw [List.map_cons, List.nodup_cons] at hnd
    cases j with
    | zero =>
      rw [List.get?_cons_zero] at hget
      injection hget with hba
      subst hba
      simp only [applyPerpUniverseAux]
      have hpres : ∀ x ∈ pu, x.name ≠ b.name := by
        intro x hx he
        exact hnd.1 (he ▸ List.mem_map_of_mem (fun x => x.name) hx)
      rw [applyPerpAux_e2i_preserve pu _ _ _ _ hpres, mapGet_mapSet_self]
    | succ n =>
      rw [List.get?_cons_succ] at hget
      simp only [applyPerpUniverseAux]
      exact ih _ _ (i + 1) n a hget hnd.2

/-- The spot pass does not disturb asset-to-index bindings of symbols
it never generates. -/
theorem applySpot_a2i_preserve (ts : List SpotToken) (su : List SpotMarket) :
    ∀ (a2i : List (String × Nat)) (e2i : List (String × String)) (k : String),
      k ∉ spotKeys ts su →
      mapGet (applySpotUniverse a2i e2i ts su).1 k = mapGet a2i k := by
  induction su with
  | nil => intro a2i e2i k _; rfl
  | cons m su ih =>
    intro a2i e2i k h
    cases hfb : ts.find? (fun t => t.index == m.tokenBase) with
    | none =>
      simp only [applySpotUniverse, hfb]
      simp only [spotKeys, hfb] at h
      exact ih _ _ _ h
    | some b =>
      cases hfq : ts.find? (fun t => t.index == m.tokenQuote) with
      | none =>
        simp only [applySpotUniverse, hfb, hfq]
        simp only [spotKeys, hfb, hfq] at h
        exact ih _ _ _ h
      | some q =>
        simp only [applySpotUniverse, hfb, hfq]
        simp only [spotKeys, hfb, hfq, List.mem_cons] at h
        push_neg at h
        rw [ih _ _ _ h.2]
        exact mapGet_mapSet_ne _ _ _ _ h.1

/-- The spot pass does not disturb exchange-name bindings of market
names it never binds. -/
theorem applySpot_e2i_preserve (ts : List SpotToken) (su : List SpotMarket) :
    ∀ (a2i : List (String × Nat)) (e2i : List (String × String)) (k : String),
      k ∉ spotMarketNames ts su →
      mapGet (applySpotUniverse a2i e2i ts su).2 k = mapGet e2i k := by
  induction su with
  | nil => intro a2i e2i k _; rfl
  | cons m su ih =>
    intro a2i e2i k h
    cases hfb : ts.find? (fun t => t.index == m.tokenBase) with
    | none =>
      simp only [applySpotUniverse, hfb]
      simp only [spotMarketNames, hfb] at h
      exact ih _ _ _ h
    | some b =>
      cases hfq : ts.find? (fun t => t.index == m.tokenQuote) with
      | none =>
        simp only [applySpotUniverse, hfb, hfq]
        simp only [spotMarketNames, hfb, hfq] at h
        exact ih _ _ _ h
      | some q =>
        simp only [applySpotUniverse, hfb, hfq]
        simp only [spotMarketNames, hfb, hfq, List.mem_cons] at h
        push_neg at h
        rw [ih _ _ _ h.2]
        exact mapGet_mapSet_ne _ _ _ _ h.1

/-- With pairwise-distinct composite symbols, each resolvable spot
market ends up bound to `10000 + market.index`. -/
theorem applySpot_a2i_get (ts : List SpotToken) (su : List SpotMarket) :
    ∀ (a2i : List (String × Nat)) (e2i : List (String × String))
      (m : SpotMarket) (b q : SpotToken), m ∈ su →
      ts.find? (fun t => t.index == m.tokenBase) = some b →
      ts.find? (fun t => t.index == m.tokenQuote) = some q →
      (spotKeys ts su).Nodup →
      mapGet (applySpotUniverse a2i e2i ts su).1 (b.name ++ "-" ++ q.name)
        = some (10000 + m.index) := by
  induction su with
  | nil => intro _ _ _ _ _ hm _ _ _; simp at hm
  | cons m0 su ih =>
    intro a2i e2i m b q hm hfb hfq hnd
    rcases List.mem_cons.mp hm with he | hm2
    · subst he
      simp only [applySpotUniverse, hfb, hfq]
      simp only [spotKeys, hfb, hfq, List.nodup_cons] at hnd
      rw [applySpot_a2i_preserve ts su _ _ _ hnd.1]
      exact mapGet_mapSet_self _ _ _
    · cases hfb0 : ts.find? (fun t => t.index == m0.tokenBase) with
      | none =>
        simp only [applySpotUniverse, hfb0]
        simp only [spotKeys, hfb0] at hnd
        exact ih _ _ m b q hm2 hfb hfq hnd
      | some b0 =>
        cases hfq0 : ts.find? (fun t => t.index == m0.tokenQuote) with
        | none =>
          simp only [applySpotUniverse, hfb0, hfq0]
          simp only [spotKeys, hfb0, hfq0] at hnd
          exact ih _ _ m b q hm2 hfb hfq hnd
        | some q0 =>
          simp only [applySpotUniverse, hfb0, hfq0]
          simp only [spotKeys, hfb0, hfq0, List.nodup_cons] at hnd
          exact ih _ _ m b q hm2 hfb hfq hnd.2

/-- C5: after a successful refresh, the perpetual asset at universe
position `j` named `N` is bound as `N-PERP ↦ j` in the asset-to-index
map and `N ↦ N-PERP` in the exchange-to-internal map (given distinct
generated keys, since a later duplicate binding would overwrite); every
spot market whose base and quote token indices resolve to tokens `B`
and `Q` is bound as `B-Q ↦ 10000 + market.index`; and on the spec's
concrete PURR/USDC example, `getAssetIndex "PURR-USDC"` returns 10000
and `getExchangeName "PURR-USDC"` returns the market's display name. -/
theorem refresh_symbol_construction (s : SCState) (pu : List PerpAsset)
    (ts : List SpotToken) (su : List SpotMarket) :
    (∀ (j : Nat) (a : PerpAsset), pu.get? j = some a →
      (pu.map (fun x => x.name ++ "-PERP")).Nodup →
      (a.name ++ "-PERP") ∉ spotKeys ts su →
      mapGet (refreshAssetMaps s (.responses (some ⟨some pu⟩)
          (some ⟨some ts, some su⟩))).1.assetToIndexMap (a.name ++ "-PERP")
        = some j)
    ∧ (∀ (j : Nat) (a : PerpAsset), pu.get? j = some a →
      (pu.map (fun x => x.name)).Nodup →
      a.name ∉ spotMarketNames ts su →
      mapGet (refreshAssetMaps s (.responses (some ⟨some pu⟩)
          (some ⟨some ts, some su⟩))).1.exchangeToInternalNameMap a.name
        = some (a.name ++ "-PERP"))
    ∧ (∀ (m : SpotMarket) (b q : SpotToken), m ∈ su →
      ts.find? (fun t => t.index == m.tokenBase) = some b →
      ts.find? (fun t => t.index == m.tokenQuote) = some q →
      (spotKeys ts su).Nodup →
      mapGet (refreshAssetMaps s (.responses (some ⟨some pu⟩)
          (some ⟨some ts, some su⟩))).1.assetToIndexMap (b.name ++ "-" ++ q.name)
        = some (10000 + m.index))
    ∧ getAssetIndex purrState "PURR-USDC" = Except.ok (some 10000)
    ∧ getExchangeName purrState "PURR-USDC" = Except.ok (some "PURR/USDC") := by
  refine ⟨?_, ?_, ?_, rfl, rfl⟩
  · intro j a hget hnd hns
    show mapGet (applySpotUniverse (applyPerpUniverseAux [] [] 0 pu).1
      (applyPerpUniverseAux [] [] 0 pu).2 ts su).1 (a.name ++ "-PERP") = some j
    rw [applySpot_a2i_preserve ts su _ _ _ hns,
        applyPerpAux_a2i_get pu [] [] 0 j a hget hnd, Nat.zero_add]
  · intro j a hget hnd hns
    show mapGet (applySpotUniverse (applyPerpUniverseAux [] [] 0 pu).1
      (applyPerpUniverseAux [] [] 0 pu).2 ts su).2 a.name = some (a.name ++ "-PERP")
    rw [applySpot_e2i_preserve ts su _ _ _ hns,
        applyPerpAux_e2i_get pu [] [] 0 j a hget hnd]
  · intro m b q hm hfb hfq hnd
    show mapGet (applySpotUniverse (applyPerpUniverseAux [] [] 0 pu).1
      (applyPerpUniverseAux [] [] 0 pu).2 ts su).1 (b.name ++ "-" ++ q.name)
      = some (10000 + m.index)
    exact applySpot_a2i_get ts su _ _ m b q hm hfb hfq hnd

/-- Witness for C5: a one-asset perpetual universe (`BTC`) refreshed
together with the PURR/USDC spot example. -/
theorem refresh_symbol_construction_witness :
    (([{ name := "BTC" }] : List PerpAsset).get? 0 = some { name := "BTC" }
      ∧ (([{ name := "BTC" }] : List PerpAsset).map
          (fun x => x.name ++ "-PERP")).Nodup
      ∧ ("BTC" ++ "-PERP") ∉ spotKeys purrTokens [purrMarket])
    ∧ mapGet (refreshAssetMaps scFresh (.responses
        (some ⟨some [{ name := "BTC" }]⟩)
        (some ⟨some purrTokens, some [purrMarket]⟩))).1.assetToIndexMap
        (PerpAsset.name { name := "BTC" } ++ "-PERP") = some 0 :=
  ⟨⟨rfl, by decide, by decide⟩,
   (refresh_symbol_construction scFresh [{ name := "BTC" }] purrTokens
      [purrMarket]).1 0 { name := "BTC" } rfl (by decide) (by decide)⟩
